import Mathlib

/-!
Verification development for the IBHelm MCP server's query gateway and
result shaper (src/database.py) and its sandboxed data-access primitive
(src/tools/python_exec.py).

Python strings are embedded as `List Char`.  Python's `str.upper()` is
modelled by `Char.toUpper` (ASCII case mapping; the claims only involve
ASCII text).  Python's float division inside `smart_truncate`
(`int(max_total_chars / (total_chars / total_rows))`) is modelled by the
exact rational floor `max_total_chars * total_rows / total_chars`; the two
agree except at astronomically large magnitudes where binary floats lose
integer precision.
-/

namespace IbhelmMcp

/-- Python whitespace characters recognised by `str.strip()` / `str.split()`. -/
def isPySpace (c : Char) : Bool :=
  c = ' ' || c = '\t' || c = '\n' || c = '\r' || c = '\x0b' || c = '\x0c'

/-- Python `s.strip()`: drop leading and trailing whitespace. -/
def pyStrip (l : List Char) : List Char :=
  ((l.dropWhile isPySpace).reverse.dropWhile isPySpace).reverse

/-- Python `s.startswith(p)` on character lists. -/
def listStartsWith : List Char → List Char → Bool
  | _, [] => true
  | [], _ :: _ => false
  | c :: l, p :: ps => if c = p then listStartsWith l ps else false

/-- Python `p in s` (substring containment) on character lists. -/
def listContains (s pat : List Char) : Bool :=
  s.tails.any (fun t => listStartsWith t pat)

/-- Accumulator worker for `pySplit` (Python `str.split()` with no argument:
split on whitespace runs, discarding empty pieces). -/
def pySplitAux : List Char → List Char → List (List Char)
  | [], acc => if acc = [] then [] else [acc.reverse]
  | c :: cs, acc =>
      if isPySpace c then
        if acc = [] then pySplitAux cs [] else acc.reverse :: pySplitAux cs []
      else pySplitAux cs (c :: acc)

/-- Python `s.split()` (no separator argument). -/
def pySplit (l : List Char) : List (List Char) := pySplitAux l []

/-- Python `s.replace(a, b)` where `a` and `b` are single characters. -/
def pyReplaceChar (a b : Char) (l : List Char) : List Char :=
  l.map (fun c => if c = a then b else c)

/-- Python `s.replace(a, '')` where `a` is a single character. -/
def pyRemoveChar (a : Char) (l : List Char) : List Char :=
  l.filter (fun c => ¬ c = a)

/-- Python `s[:h]` for a non-negative `h`. -/
def pyHead (h : Nat) (l : List Char) : List Char := l.take h

/-- Python `s[-h:]` for a non-negative `h`.  Note the Python quirk: `s[-0:]`
is `s[0:]`, the whole string, while for `h > 0` at most the last `h`
characters are taken. -/
def pyTail (h : Nat) (l : List Char) : List Char :=
  if h = 0 then l else l.drop (l.length - h)

/-- Python `s.rstrip()` (trailing whitespace removed). -/
def pyRStripWs (l : List Char) : List Char :=
  (l.reverse.dropWhile isPySpace).reverse

/-- Python `s.rstrip(';')`. -/
def pyRStripSemi (l : List Char) : List Char :=
  (l.reverse.dropWhile (fun c => c = ';')).reverse

/-- First-match association list lookup, the model of a Python dict access. -/
def alistGet {β : Type} : List (List Char × β) → List Char → Option β
  | [], _ => none
  | (k, v) :: r, f => if k = f then some v else alistGet r f

/-!  Comment stripping, from `strip_sql_comments` in src/database.py.

`re.sub(r'--[^\n]*', '', query)` removes, scanning left to right, every
maximal run starting at `--` and extending up to (not including) the next
newline.  This is the equivalent one-pass state machine: `slcAux true`
means the scanner is inside a line comment. -/

/-- State machine for SQL line-comment removal. -/
def slcAux : Bool → List Char → List Char
  | _, [] => []
  | true, c :: cs => if c = '\n' then '\n' :: slcAux false cs else slcAux true cs
  | false, c :: cs =>
      match c, cs with
      | '-', '-' :: cs' => slcAux true cs'
      | c, cs => c :: slcAux false cs

/-- Removal of SQL line comments: `re.sub(r'--[^\n]*', '', query)`. -/
def stripLineComments (l : List Char) : List Char := slcAux false l

/-!  `re.sub(r'/\*.*?\*/', '', query, flags=re.DOTALL)`: left to right,
each `/*` opens a comment that runs to the first following `*/`; if no
`*/` follows, the `/*` does not match and is left in place (and since no
`*/` occurs later at all, no later match exists either).  `sbcIn` buffers
the characters seen since the pending `/*` so they can be restored verbatim
when the comment turns out to be unclosed. -/
mutual

/-- Block-comment removal, scanning outside any comment. -/
def sbcOut : List Char → List Char
  | [] => []
  | c :: cs =>
      match c, cs with
      | '/', '*' :: cs' => sbcIn cs' []
      | c, cs => c :: sbcOut cs

/-- Block-comment removal, scanning inside a pending `/* ...` whose body so
far is `pending.reverse`. -/
def sbcIn : List Char → List Char → List Char
  | [], pending => '/' :: '*' :: pending.reverse
  | c :: cs, pending =>
      match c, cs with
      | '*', '/' :: cs' => sbcOut cs'
      | c, cs => sbcIn cs (c :: pending)

end

/-- Removal of SQL block comments: `re.sub(r'/\*.*?\*/', '', query, DOTALL)`. -/
def stripBlockComments (l : List Char) : List Char := sbcOut l

/-- `strip_sql_comments` from src/database.py: line comments removed, then
block comments, then `strip()`. -/
def strip_sql_comments (q : List Char) : List Char :=
  pyStrip (stripBlockComments (stripLineComments q))

/-!  Query validation, from `validate_query` in src/database.py. -/

/-- The denylist of mutating keywords, in source order. -/
def DANGEROUS : List (List Char) :=
  ["INSERT".data, "UPDATE".data, "DELETE".data, "DROP".data, "CREATE".data,
   "ALTER".data, "TRUNCATE".data, "GRANT".data, "REVOKE".data,
   "EXECUTE".data, "COPY".data]

/-- Rejection message for a query that does not start with SELECT/WITH. -/
def onlySelectMsg : List Char :=
  "❌ Only SELECT queries allowed.\n\n💡 Start with SELECT or WITH (for CTEs).".data

/-- Rejection message for a denylisted keyword. -/
def dangerMsg (kw : List Char) : List Char :=
  "❌ ".data ++ kw ++ " statements not allowed.\n\n💡 This is a read-only connection.".data

/-- The per-keyword test from `validate_query`:
`f" {kw} " in f" {query_upper} " or query_upper.startswith(f"{kw} ")`. -/
def dangerHit (u kw : List Char) : Bool :=
  listContains (' ' :: (u ++ [' '])) (' ' :: (kw ++ [' '])) ||
  listStartsWith u (kw ++ [' '])

/-- The comment-stripped, upper-cased, whitespace-stripped view of a query
(`query_upper` in `validate_query`). -/
def cleanedUpper (q : List Char) : List Char :=
  pyStrip ((strip_sql_comments q).map Char.toUpper)

/-- The classification part of `validate_query`, operating on the cleaned
upper-cased text. -/
def validateUpper (u : List Char) : Bool × List Char :=
  if listStartsWith u "SELECT".data || listStartsWith u "WITH".data then
    match DANGEROUS.find? (fun kw => dangerHit u kw) with
    | some kw => (false, dangerMsg kw)
    | none => (true, [])
  else (false, onlySelectMsg)

/-- `validate_query` from src/database.py. -/
def validate_query (q : List Char) : Bool × List Char :=
  validateUpper (cleanedUpper q)

/-!  Cell values and truncation, from src/database.py.  A result cell is
null, a boolean, an integer, or a string (timestamps and binary payloads
are converted to strings by the gateway before shaping, so they appear
here as strings). -/

/-- A scalar cell value of a result row. -/
inductive Val where
  | null
  | bool (b : Bool)
  | int (n : Int)
  | str (s : List Char)
deriving DecidableEq

/-- Python `str(value)` for the value kinds of the model. -/
def pyStr : Val → List Char
  | .null => "None".data
  | .bool true => "True".data
  | .bool false => "False".data
  | .int n => (toString n).data
  | .str s => s

/-- The middle-ellipsis replacement built by `truncate_cell`:
`f"{value[:half]}…[{len(value) - 2*half} chars]…{value[-half:]}"`.  The
omitted-count arithmetic is Python int arithmetic, hence may be negative. -/
def truncMid (s : List Char) (half : Nat) : List Char :=
  pyHead half s ++ "…[".data ++ (toString ((s.length : Int) - 2 * half)).data ++
    " chars]…".data ++ pyTail half s

/-- `truncate_cell` from src/database.py. -/
def truncate_cell (value : Val) (maxChars previewChars : Nat) : Val × Bool :=
  match value with
  | .null => (.null, false)
  | .str s =>
      if s.length ≤ maxChars then (.str s, false)
      else (.str (truncMid s previewChars), true)
  | v =>
      if (pyStr v).length ≤ maxChars then (v, false)
      else (.str (truncMid (pyStr v) previewChars), true)

/-- A row: an ordered mapping column name → value (a Python dict). -/
abbrev Row : Type := List (List Char × Val)

/-- Estimated character count of one value, per `estimate_row_chars`:
null → 1, string → its length, else the length of `str(value)`. -/
def valChars : Val → Nat
  | .null => 1
  | .str s => s.length
  | v => (pyStr v).length

/-- `estimate_row_chars` from src/database.py. -/
def estimate_row_chars (row : Row) : Nat :=
  (row.map (fun kv => valChars kv.2)).sum

/-!  `smart_truncate` from src/database.py.  Configuration constants from
src/config.py. -/

def MAX_RESPONSE_CHARS : Nat := 8000
def MAX_CELL_CHARS : Nat := 200
def CELL_PREVIEW_CHARS : Nat := 80
def MIN_ROWS_FOR_PREVIEW : Nat := 3

/-- One row after the per-cell truncation pass of `smart_truncate`
(`truncate_cell(v, max_cell_chars)` — the preview width stays at its
default `CELL_PREVIEW_CHARS`). -/
def processRow (maxCell : Nat) (r : Row) : Row :=
  r.map (fun kv => (kv.1, (truncate_cell kv.2 maxCell CELL_PREVIEW_CHARS).1))

/-- All rows after the per-cell truncation pass. -/
def processedOf (rows : List Row) (maxCell : Nat) : List Row :=
  rows.map (processRow maxCell)

/-- Whether any cell was truncated by the per-cell pass. -/
def cellsTruncatedOf (rows : List Row) (maxCell : Nat) : Bool :=
  rows.any (fun r => r.any (fun kv => (truncate_cell kv.2 maxCell CELL_PREVIEW_CHARS).2))

/-- Total estimated character count of a list of rows. -/
def rowsTotalChars (rs : List Row) : Nat :=
  (rs.map estimate_row_chars).sum

/-- `max_rows` in `smart_truncate`:
`max(MIN_ROWS_FOR_PREVIEW * 2, int(max_total_chars / avg_row_chars))` with
`avg_row_chars = total_chars / total_rows`, i.e. the floor of
`maxTotal * totalRows / totalChars`. -/
def maxRowsOf (maxTotal totalRows totalChars : Nat) : Nat :=
  max (MIN_ROWS_FOR_PREVIEW * 2) (maxTotal * totalRows / totalChars)

/-- `show_each` in `smart_truncate`: `max(MIN_ROWS_FOR_PREVIEW, max_rows // 2)`. -/
def showEachOf (maxTotal totalRows totalChars : Nat) : Nat :=
  max MIN_ROWS_FOR_PREVIEW (maxRowsOf maxTotal totalRows totalChars / 2)

/-- The metadata dictionary built by `smart_truncate` (and extended by
`execute_query`).  Fields that a given code path leaves out of the Python
dict are `none`. -/
structure Meta where
  truncated : Option Bool := none
  total_rows : Option Nat := none
  total_chars : Option Nat := none
  total_chars_approx : Option Nat := none
  cells_truncated : Option Bool := none
  rows_shown : Option Nat := none
  rows_omitted : Option Nat := none
  preview : Option (List Char) := none
deriving DecidableEq

/-- Metadata of the empty-input early return of `smart_truncate`. -/
def emptyMeta : Meta :=
  { truncated := some false, total_rows := some 0, total_chars := some 0 }

/-- The base metadata of the non-empty paths of `smart_truncate`. -/
def baseMetaOf (rows : List Row) (maxCell : Nat) : Meta :=
  { total_rows := some rows.length,
    total_chars_approx := some (rowsTotalChars (processedOf rows maxCell)),
    cells_truncated := some (cellsTruncatedOf rows maxCell) }

/-- Metadata of the untruncated return paths of `smart_truncate`. -/
def metaUntrunc (rows : List Row) (maxCell : Nat) : Meta :=
  { baseMetaOf rows maxCell with
    truncated := some false, rows_shown := some rows.length }

/-- The preview descriptor `f"first {show_each} + last {show_each} of {total_rows}"`. -/
def previewText (showEach totalRows : Nat) : List Char :=
  "first ".data ++ (toString showEach).data ++ " + last ".data ++
    (toString showEach).data ++ " of ".data ++ (toString totalRows).data

/-- Metadata of the truncating return path of `smart_truncate`. -/
def metaTrunc (rows : List Row) (maxCell showEach : Nat) : Meta :=
  { baseMetaOf rows maxCell with
    truncated := some true,
    rows_shown := some (showEach * 2),
    rows_omitted := some (rows.length - showEach * 2),
    preview := some (previewText showEach rows.length) }

/-- `smart_truncate` from src/database.py. -/
def smart_truncate (rows : List Row) (maxTotal maxCell : Nat) (forceFull : Bool) :
    List Row × Meta :=
  if rows = [] then ([], emptyMeta)
  else if forceFull then (processedOf rows maxCell, metaUntrunc rows maxCell)
  else if rowsTotalChars (processedOf rows maxCell) ≤ maxTotal then
    (processedOf rows maxCell, metaUntrunc rows maxCell)
  else if rows.length ≤ MIN_ROWS_FOR_PREVIEW * 2 then
    (processedOf rows maxCell, metaUntrunc rows maxCell)
  else
    let showEach := showEachOf maxTotal rows.length (rowsTotalChars (processedOf rows maxCell))
    if rows.length ≤ showEach * 2 then
      (processedOf rows maxCell, metaUntrunc rows maxCell)
    else
      ((processedOf rows maxCell).take showEach ++
         (processedOf rows maxCell).drop (rows.length - showEach),
       metaTrunc rows maxCell showEach)

/-!  TOON serialization, from `to_toon` in src/database.py. -/

/-- The marker substitution pass of `to_toon` on a string cell:
`v.replace('\n','↵').replace('\t','→').replace('\r','')`. -/
def toonMarked (s : List Char) : List Char :=
  pyRemoveChar '\r' (pyReplaceChar '\t' '→' (pyReplaceChar '\n' '↵' s))

/-- Python `v.replace('"','""')`: every double quote doubled. -/
def doubleQuotesIn : List Char → List Char
  | [] => []
  | c :: cs => (if c = '"' then ['"', '"'] else [c]) ++ doubleQuotesIn cs

/-- The escaping applied by `to_toon` to a string cell: the marker pass,
then CSV-style quote wrapping when the result contains a comma or a double
quote (internal double quotes doubled). -/
def toonEscape (s : List Char) : List Char :=
  if ',' ∈ toonMarked s ∨ '"' ∈ toonMarked s then
    '"' :: doubleQuotesIn (toonMarked s) ++ ['"']
  else toonMarked s

/-- The cell rendering of `to_toon`: null → `∅`, strings escaped, booleans
`T`/`F`, anything else via `str(v)`. -/
def toonCell : Val → List Char
  | .null => "∅".data
  | .str s => toonEscape s
  | .bool b => if b then "T".data else "F".data
  | .int n => (toString n).data

/-- Rendering of `row.get(f)`: an absent key renders like a null value. -/
def toonCellOpt : Option Val → List Char
  | none => "∅".data
  | some v => toonCell v

/-- One body line of the TOON output (two-space indent, comma-joined cells
over the header fields). -/
def toonLine (fields : List (List Char)) (row : Row) : List Char :=
  "  ".data ++ List.intercalate ",".data (fields.map (fun f => toonCellOpt (alistGet row f)))

/-- `to_toon` from src/database.py.  The field set comes from the first row
only. -/
def to_toon (rows : List Row) : List Char :=
  match rows with
  | [] => "rows[0]\x7b\x7d: (empty)".data
  | r0 :: _ =>
      let fields := r0.map Prod.fst
      let header := "rows[".data ++ (toString rows.length).data ++ "]\x7b".data ++
        List.intercalate ",".data fields ++ "\x7d:".data
      List.intercalate "\n".data (header :: rows.map (toonLine fields))

/-!  The sandbox data-access primitive `db_query` from
src/tools/python_exec.py.  Inside the execution environment it is a pure
closure over the pre-fetch cache: it normalizes the query text
(`' '.join(sql.split())`), looks it up, and raises a descriptive error on a
miss — it never reaches the database. -/

/-- Whitespace normalization of a query text: `' '.join(sql.split())`. -/
def normalizeQuery (sql : List Char) : List Char :=
  List.intercalate " ".data (pySplit sql)

/-- The pre-fetch cache: normalized query text → already-fetched rows. -/
abbrev QueryCache : Type := List (List Char × List Row)

/-- The error message of a cache miss:
`f"Query not pre-cached: {sql[:50]}... Use string literals for db_query()."`. -/
def notCachedMsg (sql : List Char) : List Char :=
  "Query not pre-cached: ".data ++ sql.take 50 ++
    "... Use string literals for db_query().".data

/-- `db_query` from src/tools/python_exec.py (the sandbox-facing closure). -/
def db_query (cache : QueryCache) (sql : List Char) : Except (List Char) (List Row) :=
  match alistGet cache (normalizeQuery sql) with
  | some r => .ok r
  | none => .error (notCachedMsg sql)

/-!  `execute_query` from src/database.py.  The database itself is
abstracted as an oracle `dbFetch : List Char → List Row` (the rows it
would return for a statement, already converted to JSON-safe `Val`s: the
gateway's timestamp/bytes conversion happens between the wire and this
model).  Every statement the gateway would send over an acquired
connection is recorded as a `DbEvent`, so "no database interaction" is the
proposition that the event list is empty.  The wall-clock
`query_time_ms` metadatum and the optional `compute_column_stats` block
are outside the model (real time; and Python `set` iteration order),
no claim depends on either. -/

/-- One observable interaction of the gateway with the connection pool. -/
inductive DbEvent where
  | acquire
  | exec (stmt : List Char)
deriving DecidableEq

/-- The result envelope: exactly one of the success shapes
(`data` for TOON, `rows` for JSON) or the error shape. -/
inductive Envelope where
  | toonData (data : List Char) (meta : Meta)
  | jsonRows (rs : List Row) (meta : Meta)
  | err (msg : List Char)
deriving DecidableEq

/-- Python truthiness of the `limit` argument (`None` and `0` are falsy). -/
def limitTruthy : Option Nat → Bool
  | none => false
  | some l => ¬ l = 0

/-- Python `user_email or get_user_context()` (`None` and `""` are falsy). -/
def pyOrEmail (a b : Option (List Char)) : Option (List Char) :=
  match a with
  | some s => if s = [] then b else some s
  | none => b

/-- The textual `LIMIT` rewrite of `execute_query`:
`query.rstrip().rstrip(';') + f" LIMIT {min(limit, 1000)}"` when
`not full_output and limit and 'LIMIT' not in query.upper()`. -/
def addLimit (query : List Char) (limit : Option Nat) (fullOutput : Bool) : List Char :=
  if ¬ fullOutput ∧ limitTruthy limit ∧
      ¬ listContains (query.map Char.toUpper) "LIMIT".data then
    pyRStripSemi (pyRStripWs query) ++ " LIMIT ".data ++
      (toString (min (limit.getD 0) 1000)).data
  else query

/-- The session statements sent before the query itself. -/
def sessionEvents (effEmail : Option (List Char)) : List DbEvent :=
  [DbEvent.acquire, DbEvent.exec "SET statement_timeout = \x2730s\x27".data] ++
    (match effEmail with
     | some e => if e = [] then [] else
        [DbEvent.exec "SELECT set_config(\x27app.user_email\x27, $1, true)".data]
     | none => [])

/-- `execute_query` from src/database.py, over the database oracle
`dbFetch`; returns the envelope plus the trace of database interactions. -/
def execute_query (dbFetch : List Char → List Row) (query : List Char)
    (fmtToon : Bool) (limit : Option Nat) (fullOutput : Bool)
    (userEmail ctxEmail : Option (List Char)) : Envelope × List DbEvent :=
  let v := validate_query query
  if v.1 = false then (.err v.2, [])
  else
    let q := addLimit query limit fullOutput
    let eff := pyOrEmail userEmail ctxEmail
    let fetched := dbFetch q
    let shaped := smart_truncate fetched MAX_RESPONSE_CHARS MAX_CELL_CHARS fullOutput
    let events := sessionEvents eff ++ [DbEvent.exec q]
    if fmtToon then (.toonData (to_toon shaped.1) shaped.2, events)
    else (.jsonRows shaped.1 shaped.2, events)

/-- The first space-delimited token of the cleaned text. -/
def firstToken (l : List Char) : List Char :=
  l.takeWhile (fun c => ¬ c = ' ')

/-!  Supporting lemmas. -/

theorem listStartsWith_cons_ne (c p : Char) (l ps : List Char) (h : ¬ c = p) :
    listStartsWith (c :: l) (p :: ps) = false := by
  simp [listStartsWith, h]

theorem takeWhile_cons_head (c : Char) (t u : List Char)
    (h : u.takeWhile (fun x => ¬ x = ' ') = c :: t) : ∃ u', u = c :: u' := by
  cases u with
  | nil => simp [List.takeWhile] at h
  | cons x xs =>
      simp only [List.takeWhile] at h
      by_cases hx : (¬ x = ' ' : Bool) = true
      · rw [hx] at h
        simp at h
        exact ⟨xs, by rw [h.1]⟩
      · rw [Bool.not_eq_true] at hx
        rw [hx] at h
        simp at h

theorem exists_head_of_firstToken (u : List Char) (c : Char) (t : List Char)
    (h : firstToken u = c :: t) : ∃ u', u = c :: u' :=
  takeWhile_cons_head c t u h

/-- A first token on the denylist forces a head character that is neither
`S` nor `W`, hence the cleaned text cannot start with SELECT or WITH. -/
theorem head_of_dangerous_firstToken (u : List Char)
    (h : firstToken u ∈ DANGEROUS) :
    ∃ c u', u = c :: u' ∧ ¬ c = 'S' ∧ ¬ c = 'W' := by
  simp only [DANGEROUS, List.mem_cons, List.not_mem_nil, or_false] at h
  rcases h with h|h|h|h|h|h|h|h|h|h|h
  · obtain ⟨u', rfl⟩ := exists_head_of_firstToken u 'I' "NSERT".data h
    exact ⟨'I', u', rfl, by decide, by decide⟩
  · obtain ⟨u', rfl⟩ := exists_head_of_firstToken u 'U' "PDATE".data h
    exact ⟨'U', u', rfl, by decide, by decide⟩
  · obtain ⟨u', rfl⟩ := exists_head_of_firstToken u 'D' "ELETE".data h
    exact ⟨'D', u', rfl, by decide, by decide⟩
  · obtain ⟨u', rfl⟩ := exists_head_of_firstToken u 'D' "ROP".data h
    exact ⟨'D', u', rfl, by decide, by decide⟩
  · obtain ⟨u', rfl⟩ := exists_head_of_firstToken u 'C' "REATE".data h
    exact ⟨'C', u', rfl, by decide, by decide⟩
  · obtain ⟨u', rfl⟩ := exists_head_of_firstToken u 'A' "LTER".data h
    exact ⟨'A', u', rfl, by decide, by decide⟩
  · obtain ⟨u', rfl⟩ := exists_head_of_firstToken u 'T' "RUNCATE".data h
    exact ⟨'T', u', rfl, by decide, by decide⟩
  · obtain ⟨u', rfl⟩ := exists_head_of_firstToken u 'G' "RANT".data h
    exact ⟨'G', u', rfl, by decide, by decide⟩
  · obtain ⟨u', rfl⟩ := exists_head_of_firstToken u 'R' "EVOKE".data h
    exact ⟨'R', u', rfl, by decide, by decide⟩
  · obtain ⟨u', rfl⟩ := exists_head_of_firstToken u 'E' "XECUTE".data h
    exact ⟨'E', u', rfl, by decide, by decide⟩
  · obtain ⟨u', rfl⟩ := exists_head_of_firstToken u 'C' "OPY".data h
    exact ⟨'C', u', rfl, by decide, by decide⟩

/-!  Claim theorems. -/

/-- C2: for every query string `q`, `validate_query q` returns `ok = false`
whenever the comment-stripped, upper-cased text of `q` does not start with
SELECT or WITH, or has one of the denylisted keywords as its first
space-delimited token. -/
theorem validate_query_rejects (q : List Char)
    (h : (¬ (listStartsWith (cleanedUpper q) "SELECT".data = true ∨
             listStartsWith (cleanedUpper q) "WITH".data = true)) ∨
         firstToken (cleanedUpper q) ∈ DANGEROUS) :
    (validate_query q).1 = false := by
  have hns : listStartsWith (cleanedUpper q) "SELECT".data = false ∧
      listStartsWith (cleanedUpper q) "WITH".data = false := by
    rcases h with h | h
    · push_neg at h
      exact ⟨Bool.not_eq_true _ ▸ h.1, Bool.not_eq_true _ ▸ h.2⟩
    · obtain ⟨c, u', hu, hS, hW⟩ := head_of_dangerous_firstToken _ h
      rw [hu]
      exact ⟨listStartsWith_cons_ne c 'S' u' "ELECT".data hS,
             listStartsWith_cons_ne c 'W' u' "ITH".data hW⟩
  unfold validate_query validateUpper
  rw [hns.1, hns.2]
  simp

/-- Witness for C2 at the concrete query `DROP TABLE x`. -/
theorem validate_query_rejects_witness :
    (firstToken (cleanedUpper "DROP TABLE x".data) ∈ DANGEROUS) ∧
    (validate_query "DROP TABLE x".data).1 = false :=
  ⟨by decide, validate_query_rejects "DROP TABLE x".data (Or.inr (by decide))⟩

/-- C3 counterexample: removing the block comment of
`SELECT 1 //*x*/* DELETE */` splices the leftover `/` and `*` into a brand
new `/* DELETE */` comment, so validating the comment-stripped text
accepts while validating the original rejects. -/
theorem validate_comment_strip_cex :
    validate_query (strip_sql_comments "SELECT 1 //*x*/* DELETE */".data) ≠
      validate_query "SELECT 1 //*x*/* DELETE */".data := by decide

/-- C3 (amended): whenever comment stripping is idempotent on `q` (removing
the comment spans does not splice together a new comment delimiter),
`validate_query` of `q` and of `q` with its comment spans removed agree
exactly. -/
theorem validate_comment_strip_invariant (q : List Char)
    (h : strip_sql_comments (strip_sql_comments q) = strip_sql_comments q) :
    validate_query (strip_sql_comments q) = validate_query q := by
  unfold validate_query cleanedUpper
  rw [h]

/-- Witness for C3 (amended) at `SELECT 1 -- note`. -/
theorem validate_comment_strip_invariant_witness :
    strip_sql_comments (strip_sql_comments "SELECT 1 -- note".data) =
      strip_sql_comments "SELECT 1 -- note".data ∧
    validate_query (strip_sql_comments "SELECT 1 -- note".data) =
      validate_query "SELECT 1 -- note".data :=
  ⟨by decide, validate_comment_strip_invariant "SELECT 1 -- note".data (by decide)⟩

/-- C7: the sandbox data-access primitive only consults the pre-fetch
cache: a query whose normalized text is not cached fails with the
"not pre-cached" error, and a successful call returns exactly a cached
row list — `db_query` never produces anything the cache does not hold. -/
theorem db_query_cache_only (cache : QueryCache) (sql : List Char) :
    (alistGet cache (normalizeQuery sql) = none →
      db_query cache sql = .error (notCachedMsg sql)) ∧
    (∀ r, db_query cache sql = .ok r →
      alistGet cache (normalizeQuery sql) = some r) := by
  constructor
  · intro h
    unfold db_query
    rw [h]
  · intro r h
    unfold db_query at h
    cases hc : alistGet cache (normalizeQuery sql) with
    | some x =>
        rw [hc] at h
        cases h
        rfl
    | none =>
        rw [hc] at h
        cases h

/-- Witness for C7: the empty cache misses on `SELECT  1`. -/
theorem db_query_cache_only_witness :
    db_query [] "SELECT  1".data =
      .error "Query not pre-cached: SELECT  1... Use string literals for db_query().".data := by
  have h := (db_query_cache_only [] "SELECT  1".data).1 (by decide)
  rw [h]
  exact congrArg Except.error (by decide)

/-- C8: a query that fails validation makes `execute_query` return the
error-only envelope with the validator's message, with an empty database
interaction trace (no pool checkout, no statement sent), for every
database oracle and every combination of the remaining arguments. -/
theorem execute_query_invalid (dbFetch : List Char → List Row) (query : List Char)
    (fmtToon : Bool) (limit : Option Nat) (fullOutput : Bool)
    (ue ce : Option (List Char))
    (h : (validate_query query).1 = false) :
    execute_query dbFetch query fmtToon limit fullOutput ue ce =
      (.err (validate_query query).2, []) := by
  unfold execute_query
  simp [h]

/-- Witness for C8 at the spec's end-to-end example `DELETE FROM t`. -/
theorem execute_query_invalid_witness :
    execute_query (fun _ => []) "DELETE FROM t".data true none false none none =
      (.err onlySelectMsg, []) := by
  have h := execute_query_invalid (fun _ => []) "DELETE FROM t".data true none false
    none none (by decide)
  rw [h]
  decide

/-- C9: the lexical denylist does not understand string literals — the
read-only query `SELECT 'please DELETE me'` starts with SELECT after
cleaning, yet `validate_query` rejects it because ` DELETE ` occurs as a
space-bounded word inside the literal. -/
theorem validate_query_rejects_literal_keyword :
    listStartsWith (cleanedUpper "SELECT \x27please DELETE me\x27".data) "SELECT".data = true ∧
    (validate_query "SELECT \x27please DELETE me\x27".data).1 = false := by decide

/-- C4 counterexample: with `max_chars = 10` and `preview_chars = 80`, an
11-character string truncates to a 36-character replacement (Python's
`s[:80]` and `s[-80:]` both give the whole string and the omitted count is
negative), which a second application truncates again. -/
theorem truncate_cell_idem_cex :
    truncate_cell (truncate_cell (.str "abcdefghijk".data) 10 80).1 10 80 ≠
      ((truncate_cell (.str "abcdefghijk".data) 10 80).1, false) := by decide

/-- C4 (amended): `truncate_cell` is idempotent whenever the first
application's value fits within `max_chars` (automatic when nothing was
truncated; for the configured limits 200/80 this holds for every string of
fewer than 10^30 characters, since the replacement is 170 characters plus
the omitted-count digits). -/
theorem truncate_cell_idem (v : Val) (m p : Nat)
    (h : (truncate_cell v m p).2 = true → (pyStr (truncate_cell v m p).1).length ≤ m) :
    truncate_cell (truncate_cell v m p).1 m p = ((truncate_cell v m p).1, false) := by
  match v with
  | .null => rfl
  | .str s =>
      by_cases hs : s.length ≤ m
      · simp [truncate_cell, hs]
      · have htc : truncate_cell (Val.str s) m p = (.str (truncMid s p), true) := by
          simp [truncate_cell, hs]
        have h2 : (truncMid s p).length ≤ m := by
          have hh := h (by rw [htc])
          rw [htc] at hh
          exact hh
        rw [htc]
        simp [truncate_cell, h2]
  | .bool b =>
      by_cases hs : (pyStr (Val.bool b)).length ≤ m
      · simp [truncate_cell, hs]
      · have htc : truncate_cell (Val.bool b) m p =
            (.str (truncMid (pyStr (Val.bool b)) p), true) := by
          simp [truncate_cell, hs]
        have h2 : (truncMid (pyStr (Val.bool b)) p).length ≤ m := by
          have hh := h (by rw [htc])
          rw [htc] at hh
          exact hh
        rw [htc]
        simp [truncate_cell, h2]
  | .int n =>
      by_cases hs : (pyStr (Val.int n)).length ≤ m
      · simp [truncate_cell, hs]
      · have htc : truncate_cell (Val.int n) m p =
            (.str (truncMid (pyStr (Val.int n)) p), true) := by
          simp [truncate_cell, hs]
        have h2 : (truncMid (pyStr (Val.int n)) p).length ≤ m := by
          have hh := h (by rw [htc])
          rw [htc] at hh
          exact hh
        rw [htc]
        simp [truncate_cell, h2]

/-- Witness for C4 (amended): a 16-character string with limits (15, 1)
truncates to a 14-character replacement, which then passes through. -/
theorem truncate_cell_idem_witness :
    truncate_cell (truncate_cell (.str "abcdefghijklmnop".data) 15 1).1 15 1 =
      ((truncate_cell (.str "abcdefghijklmnop".data) 15 1).1, false) :=
  truncate_cell_idem (.str "abcdefghijklmnop".data) 15 1 (by decide)

/-!  C6: the TOON cell round trip.  The inverse direction is not part of
the source (TOON is write-only there); it is the inverse of the spec's
documented escaping rules. -/

/-- Modelled from the spec: undo the CSV-style doubling of internal double
quotes (spec §4.2: "internal double quotes doubled"). -/
def undoubleQuotes : List Char → List Char
  | [] => []
  | [c] => [c]
  | c :: d :: r =>
      if c = '"' ∧ d = '"' then '"' :: undoubleQuotes r
      else c :: undoubleQuotes (d :: r)

/-- Modelled from the spec: map the newline marker back to a newline and
the tab marker back to a tab (spec §4.2 escaping rules, inverted). -/
def unmapMarkers (l : List Char) : List Char :=
  l.map (fun c => if c = '↵' then '\n' else if c = '→' then '\t' else c)

/-- Modelled from the spec: the documented inverse of the TOON escaping for
a quote-wrapped cell: unwrap the surrounding quotes, undouble internal
double quotes, then map the markers back. -/
def specUnescapeToon (l : List Char) : List Char :=
  unmapMarkers (undoubleQuotes ((l.drop 1).dropLast))

/-- The single-character substitution performed by the marker pass. -/
def markCh (c : Char) : Char :=
  if c = '\n' then '↵' else if c = '\t' then '→' else c

theorem dropLast_append_singleton (l : List Char) (a : Char) :
    (l ++ [a]).dropLast = l := by
  induction l with
  | nil => rfl
  | cons c cs ih =>
      cases cs with
      | nil => rfl
      | cons d ds => simp [List.dropLast, ih]

theorem toonMarked_eq_map (s : List Char) (h3 : ¬ '\r' ∈ s) :
    toonMarked s = s.map markCh := by
  unfold toonMarked pyReplaceChar pyRemoveChar
  rw [List.map_map]
  have hfun : ((fun c => if c = '\t' then '→' else c) ∘
      fun c => if c = '\n' then '↵' else c) = markCh := by
    funext c
    by_cases hn : c = '\n'
    · subst hn; decide
    · by_cases ht : c = '\t'
      · subst ht; decide
      · simp [Function.comp, markCh, hn, ht]
  rw [hfun]
  rw [List.filter_eq_self.mpr]
  intro a ha
  obtain ⟨c, hc, rfl⟩ := List.mem_map.mp ha
  by_cases hn : c = '\n'
  · subst hn; decide
  · by_cases ht : c = '\t'
    · subst ht; decide
    · simp only [markCh, if_neg hn, if_neg ht]
      have : ¬ c = '\r' := fun hcr => h3 (hcr ▸ hc)
      simpa using this

theorem doubleQuotesIn_eq_nil (t : List Char) (h : doubleQuotesIn t = []) :
    t = [] := by
  cases t with
  | nil => rfl
  | cons c cs =>
      by_cases hc : c = '"'
      · simp [doubleQuotesIn, hc] at h
      · simp [doubleQuotesIn, hc] at h

theorem undoubleQuotes_doubleQuotesIn (t : List Char) :
    undoubleQuotes (doubleQuotesIn t) = t := by
  induction t with
  | nil => rfl
  | cons c cs ih =>
      by_cases hc : c = '"'
      · subst hc
        simp only [doubleQuotesIn, if_pos rfl, List.cons_append, List.nil_append]
        simp only [undoubleQuotes]
        simp [ih]
      · simp only [doubleQuotesIn, if_neg hc, List.cons_append, List.nil_append]
        cases hcs : doubleQuotesIn cs with
        | nil =>
            have : cs = [] := doubleQuotesIn_eq_nil cs hcs
            subst this
            rfl
        | cons d r =>
            simp only [undoubleQuotes]
            rw [if_neg (fun hh => hc hh.1)]
            rw [← hcs, ih]

theorem unmapMarkers_map_markCh (s : List Char)
    (h1 : ¬ '↵' ∈ s) (h2 : ¬ '→' ∈ s) :
    unmapMarkers (s.map markCh) = s := by
  unfold unmapMarkers
  rw [List.map_map]
  induction s with
  | nil => rfl
  | cons c cs ih =>
      have hc1 : ¬ c = '↵' := fun h => h1 (h ▸ List.mem_cons_self c cs)
      have hc2 : ¬ c = '→' := fun h => h2 (h ▸ List.mem_cons_self c cs)
      have ih' := ih (fun h => h1 (List.mem_cons_of_mem c h))
        (fun h => h2 (List.mem_cons_of_mem c h))
      rw [List.map_cons, ih']
      congr 1
      by_cases hn : c = '\n'
      · subst hn; decide
      · by_cases ht : c = '\t'
        · subst ht; decide
        · simp [Function.comp, markCh, hn, ht, hc1, hc2]

/-- C6: TOON round trip — for every string containing a comma, a double
quote, a newline and a tab, and none of the marker glyphs or carriage
returns, serializing the cell via `to_toon`'s escaping and applying the
spec's documented inverse recovers the original string exactly. -/
theorem toon_cell_roundtrip (s : List Char)
    (hc : ',' ∈ s) (_hq : '"' ∈ s) (_hn : '\n' ∈ s) (_ht : '\t' ∈ s)
    (h1 : ¬ '↵' ∈ s) (h2 : ¬ '→' ∈ s) (h3 : ¬ '\r' ∈ s) (_h4 : ¬ '∅' ∈ s) :
    specUnescapeToon (toonCell (.str s)) = s := by
  have hm : toonMarked s = s.map markCh := toonMarked_eq_map s h3
  have hcomma : ',' ∈ toonMarked s := by
    rw [hm]
    exact List.mem_map.mpr ⟨',', hc, by decide⟩
  show specUnescapeToon (toonEscape s) = s
  unfold toonEscape
  rw [if_pos (Or.inl hcomma)]
  unfold specUnescapeToon
  have hshape : (('"' :: doubleQuotesIn (toonMarked s) ++ ['"']).drop 1).dropLast =
      doubleQuotesIn (toonMarked s) := by
    rw [show ('"' :: doubleQuotesIn (toonMarked s) ++ ['"']).drop 1 =
        doubleQuotesIn (toonMarked s) ++ ['"'] from rfl]
    exact dropLast_append_singleton _ _
  rw [hshape]
  rw [hm, undoubleQuotes_doubleQuotesIn]
  exact unmapMarkers_map_markCh s h1 h2

/-- Witness for C6 at the string `a,b"c\nd\te`. -/
theorem toon_cell_roundtrip_witness :
    specUnescapeToon (toonCell (.str "a,b\"c\nd\te".data)) = "a,b\"c\nd\te".data :=
  toon_cell_roundtrip "a,b\"c\nd\te".data (by decide) (by decide) (by decide)
    (by decide) (by decide) (by decide) (by decide) (by decide)

/-!  C10: `to_toon` projects every row onto the first row's field set. -/

theorem alistGet_append_single (row : Row) (k : List Char) (v : Val)
    (g : List Char) (hgk : ¬ k = g) :
    alistGet (row ++ [(k, v)]) g = alistGet row g := by
  induction row with
  | nil => simp [alistGet, hgk]
  | cons kv r ih =>
      by_cases hk : kv.1 = g
      · simp [alistGet, hk]
      · simp only [List.cons_append]
        rw [show alistGet (kv :: (r ++ [(k, v)])) g =
            if kv.1 = g then some kv.2 else alistGet (r ++ [(k, v)]) g from rfl]
        rw [show alistGet (kv :: r) g =
            if kv.1 = g then some kv.2 else alistGet r g from rfl]
        rw [if_neg hk, if_neg hk, ih]

theorem toonLine_append_absent (fields : List (List Char)) (row : Row)
    (k : List Char) (v : Val) (hk : ¬ k ∈ fields) :
    toonLine fields (row ++ [(k, v)]) = toonLine fields row := by
  unfold toonLine
  congr 1
  congr 1
  apply List.map_congr_left
  intro g hg
  have hgk : ¬ k = g := fun h => hk (h ▸ hg)
  rw [alistGet_append_single row k v g hgk]

/-- C10: `to_toon` takes its field set from the first row only — a key
present in a later row but absent from the first row never affects the
output, and a first-row field missing from a later row renders as the null
glyph `∅` among that row's cells. -/
theorem to_toon_first_row_fields (r0 row : Row) (pre post : List Row)
    (k : List Char) (v : Val) (f : List Char)
    (hk : ¬ k ∈ r0.map Prod.fst) (hf : f ∈ r0.map Prod.fst)
    (hmiss : alistGet row f = none) :
    to_toon (r0 :: (pre ++ (row ++ [(k, v)]) :: post)) =
      to_toon (r0 :: (pre ++ row :: post)) ∧
    "∅".data ∈ (r0.map Prod.fst).map (fun g => toonCellOpt (alistGet row g)) := by
  constructor
  · have hline := toonLine_append_absent (r0.map Prod.fst) row k v hk
    simp only [to_toon, List.length_cons, List.length_append, List.map_cons,
      List.map_append, hline]
  · exact List.mem_map.mpr ⟨f, hf, by rw [hmiss]; rfl⟩

/-- Witness for C10: key `c` of the second row is dropped and missing key
`b` renders as `∅`. -/
theorem to_toon_first_row_fields_witness :
    to_toon [[("a".data, Val.int 1), ("b".data, Val.int 2)],
             [("a".data, Val.int 3), ("c".data, Val.int 9)]] =
      to_toon [[("a".data, Val.int 1), ("b".data, Val.int 2)],
               [("a".data, Val.int 3)]] ∧
    "∅".data ∈ ([[("a".data, Val.int 1), ("b".data, Val.int 2)]].head!.map Prod.fst).map
      (fun g => toonCellOpt (alistGet [("a".data, Val.int 3)] g)) :=
  to_toon_first_row_fields
    [("a".data, Val.int 1), ("b".data, Val.int 2)]
    [("a".data, Val.int 3)] [] [] "c".data (Val.int 9) "b".data
    (by decide) (by decide) (by decide)

/-!  C1 and C5: the truncating branch of `smart_truncate`.  Writing `n` for
the row count, `t` for the post-cell-truncation total estimate and `B` for
the budget: when `t > B` and `n > 2*MIN_ROWS_FOR_PREVIEW`, the fallback
`show_each * 2 >= total_rows` can never fire (the average-derived row count
is below `n`), so the first/last window is always returned. -/

theorem showEach_two_lt (B n t : Nat) (h1 : B < t) (h2 : MIN_ROWS_FOR_PREVIEW * 2 < n) :
    showEachOf B n t * 2 < n := by
  have ht0 : 0 < t := lt_of_le_of_lt (Nat.zero_le B) h1
  have hn0 : 0 < n := by
    unfold MIN_ROWS_FOR_PREVIEW at h2
    omega
  have hd : B * n / t < n := by
    rw [Nat.div_lt_iff_lt_mul ht0]
    calc B * n < t * n := Nat.mul_lt_mul_of_pos_right h1 hn0
    _ = n * t := Nat.mul_comm t n
  have h6 : 6 < n := by
    unfold MIN_ROWS_FOR_PREVIEW at h2
    omega
  unfold showEachOf maxRowsOf MIN_ROWS_FOR_PREVIEW
  rcases Nat.le_total (B * n / t) 6 with hc | hc
  · rw [max_eq_left hc]
    omega
  · rw [max_eq_right hc]
    rcases Nat.le_total (B * n / t / 2) 3 with hc2 | hc2
    · rw [max_eq_left hc2]
      omega
    · rw [max_eq_right hc2]
      have hmul : B * n / t / 2 * 2 ≤ B * n / t := Nat.div_mul_le_self _ 2
      omega

theorem showEach_two_le_maxRows (B n t : Nat) :
    showEachOf B n t * 2 ≤ maxRowsOf B n t := by
  unfold showEachOf maxRowsOf MIN_ROWS_FOR_PREVIEW
  rcases Nat.le_total (max (3 * 2) (B * n / t) / 2) 3 with hc2 | hc2
  · rw [max_eq_left hc2]
    rcases Nat.le_total (B * n / t) 6 with hc | hc
    · rw [max_eq_left hc]
    · rw [max_eq_right hc]
      omega
  · rw [max_eq_right hc2]
    have := Nat.div_mul_le_self (max (3 * 2) (B * n / t)) 2
    omega

/-- Under the truncating hypotheses, `smart_truncate` returns exactly the
first/last windows of the cell-truncated rows with the truncating
metadata. -/
theorem smart_truncate_trunc_eq (rows : List Row) (B mc : Nat)
    (h1 : B < rowsTotalChars (processedOf rows mc))
    (h2 : MIN_ROWS_FOR_PREVIEW * 2 < rows.length) :
    smart_truncate rows B mc false =
      ((processedOf rows mc).take
          (showEachOf B rows.length (rowsTotalChars (processedOf rows mc))) ++
        (processedOf rows mc).drop
          (rows.length - showEachOf B rows.length (rowsTotalChars (processedOf rows mc))),
       metaTrunc rows mc
         (showEachOf B rows.length (rowsTotalChars (processedOf rows mc)))) := by
  have hse := showEach_two_lt B rows.length (rowsTotalChars (processedOf rows mc)) h1 h2
  have hne : ¬ rows = [] := by
    intro h
    rw [h] at h2
    simp [MIN_ROWS_FOR_PREVIEW] at h2
  unfold smart_truncate
  rw [if_neg hne]
  rw [if_neg (by simp : ¬ (false : Bool) = true)]
  rw [if_neg (Nat.not_le.mpr h1)]
  rw [if_neg (Nat.not_le.mpr h2)]
  rw [if_neg (Nat.not_le.mpr hse)]

/-- C5: when the cell-truncated total estimate exceeds the budget and the
row count exceeds `2*MIN_ROWS_FOR_PREVIEW`, `smart_truncate` (not forced)
returns exactly `meta.rows_shown` rows, `rows_shown` is twice the computed
window size `show_each`, `rows_shown + rows_omitted` equals the total row
count, and the returned rows are the first `show_each` followed by the last
`show_each` cell-truncated rows. -/
theorem smart_truncate_window (rows : List Row) (B mc : Nat)
    (h1 : B < rowsTotalChars (processedOf rows mc))
    (h2 : MIN_ROWS_FOR_PREVIEW * 2 < rows.length) :
    (smart_truncate rows B mc false).2.rows_shown =
      some (showEachOf B rows.length (rowsTotalChars (processedOf rows mc)) * 2) ∧
    (smart_truncate rows B mc false).1.length =
      showEachOf B rows.length (rowsTotalChars (processedOf rows mc)) * 2 ∧
    (smart_truncate rows B mc false).2.rows_omitted =
      some (rows.length -
        showEachOf B rows.length (rowsTotalChars (processedOf rows mc)) * 2) ∧
    showEachOf B rows.length (rowsTotalChars (processedOf rows mc)) * 2 +
      (rows.length -
        showEachOf B rows.length (rowsTotalChars (processedOf rows mc)) * 2) =
      rows.length ∧
    (smart_truncate rows B mc false).1 =
      (processedOf rows mc).take
        (showEachOf B rows.length (rowsTotalChars (processedOf rows mc))) ++
      (processedOf rows mc).drop
        (rows.length - showEachOf B rows.length (rowsTotalChars (processedOf rows mc))) := by
  have hse := showEach_two_lt B rows.length (rowsTotalChars (processedOf rows mc)) h1 h2
  have heq := smart_truncate_trunc_eq rows B mc h1 h2
  have hPlen : (processedOf rows mc).length = rows.length := List.length_map _ _
  refine ⟨?_, ?_, ?_, ?_, ?_⟩
  · rw [heq]
    rfl
  · rw [heq]
    simp only [List.length_append, List.length_take, List.length_drop, hPlen]
    omega
  · rw [heq]
    rfl
  · omega
  · rw [heq]

/-- Witness for C5: seven one-cell rows of three characters against a
budget of 10 give `show_each = 3`, six rows shown, one omitted. -/
theorem smart_truncate_window_witness :
    (MIN_ROWS_FOR_PREVIEW * 2 < (List.replicate 7 [("a".data, Val.str "abc".data)]).length ∧
     10 < rowsTotalChars (processedOf (List.replicate 7 [("a".data, Val.str "abc".data)]) 200)) ∧
    ((smart_truncate (List.replicate 7 [("a".data, Val.str "abc".data)]) 10 200 false).2.rows_shown =
        some 6 ∧
      (smart_truncate (List.replicate 7 [("a".data, Val.str "abc".data)]) 10 200 false).1.length = 6) := by
  constructor
  · constructor
    · decide
    · decide
  · have h := smart_truncate_window (List.replicate 7 [("a".data, Val.str "abc".data)])
      10 200 (by decide) (by decide)
    have hs : showEachOf 10 (List.replicate 7 [("a".data, Val.str "abc".data)]).length
        (rowsTotalChars (processedOf (List.replicate 7 [("a".data, Val.str "abc".data)]) 200)) = 3 := by
      decide
    rw [hs] at h
    exact ⟨h.1, h.2.1⟩

/-- C1 counterexample: twenty one-cell rows, one carrying a 60-character
string, over budget 50.  The window returned by `smart_truncate` (first 6 +
last 6) has total estimate 71 > 50 even though the documented escape hatch
does not apply: the 2*MIN_ROWS_FOR_PREVIEW-row window (first 3 + last 3)
would cost only 6 ≤ 50.  The average-based row budget ignores how unevenly
the characters are distributed. -/
theorem smart_truncate_budget_cex :
    (MIN_ROWS_FOR_PREVIEW * 2 <
      ([[("a".data, Val.str "x".data)], [("a".data, Val.str "x".data)],
        [("a".data, Val.str "x".data)], [("a".data, Val.str (List.replicate 60 'x'))]] ++
        List.replicate 16 [("a".data, Val.str "x".data)]).length) ∧
    50 < rowsTotalChars
      (smart_truncate
        ([[("a".data, Val.str "x".data)], [("a".data, Val.str "x".data)],
          [("a".data, Val.str "x".data)], [("a".data, Val.str (List.replicate 60 'x'))]] ++
          List.replicate 16 [("a".data, Val.str "x".data)]) 50 200 false).1 ∧
    rowsTotalChars
      ((processedOf
          ([[("a".data, Val.str "x".data)], [("a".data, Val.str "x".data)],
            [("a".data, Val.str "x".data)], [("a".data, Val.str (List.replicate 60 'x'))]] ++
            List.replicate 16 [("a".data, Val.str "x".data)]) 200).take MIN_ROWS_FOR_PREVIEW ++
        (processedOf
          ([[("a".data, Val.str "x".data)], [("a".data, Val.str "x".data)],
            [("a".data, Val.str "x".data)], [("a".data, Val.str (List.replicate 60 'x'))]] ++
            List.replicate 16 [("a".data, Val.str "x".data)]) 200).drop
          (20 - MIN_ROWS_FOR_PREVIEW)) ≤ 50 := by
  refine ⟨by decide, by decide, by decide⟩

/-- C1 (amended): when the cell-truncated total fits the budget all rows
come back and the estimate stays within the budget; otherwise (with more
than `2*MIN_ROWS_FOR_PREVIEW` rows) what `smart_truncate` bounds is the
returned row count times the *average* row estimate: `rows_shown * t ≤
max(2*MIN_ROWS_FOR_PREVIEW * t, B * n)`.  The actual character total of
the returned rows can exceed the budget when row sizes are uneven. -/
theorem smart_truncate_budget (rows : List Row) (B mc : Nat) (_hB : 0 < B) :
    (rowsTotalChars (processedOf rows mc) ≤ B →
      (smart_truncate rows B mc false).1 = processedOf rows mc ∧
      rowsTotalChars (smart_truncate rows B mc false).1 ≤ B) ∧
    (B < rowsTotalChars (processedOf rows mc) →
      MIN_ROWS_FOR_PREVIEW * 2 < rows.length →
      (smart_truncate rows B mc false).1.length *
          rowsTotalChars (processedOf rows mc) ≤
        max (MIN_ROWS_FOR_PREVIEW * 2 * rowsTotalChars (processedOf rows mc))
          (B * rows.length)) := by
  constructor
  · intro hle
    by_cases hne : rows = []
    · subst hne
      constructor
      · simp [smart_truncate, processedOf]
      · simp [smart_truncate, rowsTotalChars]
    · have hres : (smart_truncate rows B mc false).1 = processedOf rows mc := by
        unfold smart_truncate
        rw [if_neg hne]
        rw [if_neg (by simp : ¬ (false : Bool) = true)]
        rw [if_pos hle]
      exact ⟨hres, by rw [hres]; exact hle⟩
  · intro h1 h2
    have heq := smart_truncate_trunc_eq rows B mc h1 h2
    have hse := showEach_two_lt B rows.length (rowsTotalChars (processedOf rows mc)) h1 h2
    have hPlen : (processedOf rows mc).length = rows.length := List.length_map _ _
    have hlen : (smart_truncate rows B mc false).1.length =
        showEachOf B rows.length (rowsTotalChars (processedOf rows mc)) * 2 := by
      rw [heq]
      simp only [List.length_append, List.length_take, List.length_drop, hPlen]
      omega
    rw [hlen]
    set n := rows.length with hn
    set t := rowsTotalChars (processedOf rows mc) with ht
    have hmr := showEach_two_le_maxRows B n t
    have ht0 : 0 < t := lt_of_le_of_lt (Nat.zero_le B) h1
    calc showEachOf B n t * 2 * t ≤ maxRowsOf B n t * t :=
          Nat.mul_le_mul_right t hmr
    _ ≤ max (MIN_ROWS_FOR_PREVIEW * 2 * t) (B * n) := by
        unfold maxRowsOf
        rcases Nat.le_total (B * n / t) (MIN_ROWS_FOR_PREVIEW * 2) with hc | hc
        · rw [max_eq_left hc]
          exact le_max_left _ _
        · rw [max_eq_right hc]
          have := Nat.div_mul_le_self (B * n) t
          exact le_max_of_le_right this
    _ = max (MIN_ROWS_FOR_PREVIEW * 2 * t) (B * n) := rfl

/-- Witness for C1 (amended): the seven-row instance with budget 10. -/
theorem smart_truncate_budget_witness :
    0 < 10 ∧
    ((rowsTotalChars (processedOf (List.replicate 7 [("a".data, Val.str "abc".data)]) 200) ≤ 10 →
      (smart_truncate (List.replicate 7 [("a".data, Val.str "abc".data)]) 10 200 false).1 =
        processedOf (List.replicate 7 [("a".data, Val.str "abc".data)]) 200 ∧
      rowsTotalChars
        (smart_truncate (List.replicate 7 [("a".data, Val.str "abc".data)]) 10 200 false).1 ≤ 10) ∧
    (10 < rowsTotalChars (processedOf (List.replicate 7 [("a".data, Val.str "abc".data)]) 200) →
      MIN_ROWS_FOR_PREVIEW * 2 < (List.replicate 7 [("a".data, Val.str "abc".data)]).length →
      (smart_truncate (List.replicate 7 [("a".data, Val.str "abc".data)]) 10 200 false).1.length *
          rowsTotalChars (processedOf (List.replicate 7 [("a".data, Val.str "abc".data)]) 200) ≤
        max (MIN_ROWS_FOR_PREVIEW * 2 *
            rowsTotalChars (processedOf (List.replicate 7 [("a".data, Val.str "abc".data)]) 200))
          (10 * (List.replicate 7 [("a".data, Val.str "abc".data)]).length))) :=
  ⟨by decide,
   smart_truncate_budget (List.replicate 7 [("a".data, Val.str "abc".data)]) 10 200 (by decide)⟩

end IbhelmMcp
